import Mathlib

/-!
# A shallow embedding of the `eaburns/pretty` pretty-printer

This file embeds the Go sources of the repository and proves properties of the
embedded code.

Modelling conventions, shared by all variants:

* A runtime value is an identity (`Nat`) into a `Heap`; the heap assigns each
  identity a `Node`, i.e. an optional custom-format capability (the
  `PrettyPrinter` hook of `pretty.go`, resp. the `fmt.Stringer` hook of the
  `pp` variant) together with the value's reflected shape (`Obj`).  Reference
  identity (`reflect.Value` used as a map key in the Go code) becomes equality
  of heap identities.  An *invalid* `reflect.Value` (for which `v.IsValid()`
  is false, e.g. `reflect.ValueOf(nil)`) is modelled as the value `none`;
  valid values are `some r`.
* The output sink (`io.Writer`) is a `Sink`: the text written so far plus an
  optional write budget.  A sink with `budget = none` never fails (this is
  `bytes.Buffer` or `os.Stdout` on a healthy stream); a sink with
  `budget = some b` accepts exactly `b` more writes and then fails each write
  with its error code, modelling a writer that starts returning an error.
  `pr` is the Go helper of the same name (`fmt.Fprintf` + panic on error); a
  failed write produces `Fault.ioErr`, the embedded counterpart of the
  panic carrying the write error.
* Panic-based unwinding is modelled by threading `Sink × Option Fault`
  through the traversal: `pbind` runs the continuation only when no fault has
  occurred, exactly as a Go panic skips the rest of the traversal while the
  bytes already written remain in the writer.
* A call of a user `PrettyPrint` / `String` method may return a string, panic
  with an error value, or panic with a non-error value (`PPResult`).
* Go's unbounded recursion is modelled with explicit fuel; every call layer
  consumes one unit.  `Fault.fuelOut` is an artifact of the embedding: a
  computation that yields `fuelOut` for every fuel corresponds to a
  non-terminating Go execution, and for a terminating execution a large
  enough fuel yields the Go result.
* Floating-point and complex kinds (`%f` rendering) are omitted from the
  shape enumeration; no property proved here depends on them.  The signed
  and unsigned integer kinds of each width are collapsed to `int`/`uint`,
  matching the collapsed treatment (`v.Int()`/`v.Uint()`) in the source.
* `goQuote` models `strconv.Quote` on the character classes that actually
  occur in this development (printable characters plus the common escapes);
  full numeric escaping of non-printable runes is elided.
-/

namespace GoModel

/-- Outcome of invoking a user-supplied formatting method
(`PrettyPrint() string` in `pretty.go`, `String() string` in the `pp`
variant): it returns a string, or panics with an `error` value, or panics
with a value that is not an `error`. -/
inductive PPResult where
  | str (s : String)
  | raiseErr (e : Nat)
  | raiseOther
deriving DecidableEq, Repr

/-- A fault that aborts the traversal: a failed write (the panic raised by
`pr`), a user hook panicking with an error value, a user hook panicking with
a non-error value, or fuel exhaustion (embedding artifact, see the header). -/
inductive Fault where
  | ioErr (e : Nat)
  | hookErr (e : Nat)
  | hookOther
  | fuelOut
deriving DecidableEq, Repr

/-- A struct field as seen through `reflect.StructField`: its name, its
visibility (`exported` in the sources: `len(f.PkgPath) == 0` in `pretty.go`,
upper-case first rune in the `pp` variants), and the identity of its value. -/
structure Field where
  name : String
  exported : Bool
  val : Nat
deriving DecidableEq, Repr

/-- The reflected shape of a value (`v.Kind()` dispatch).  Children are heap
identities.  `ptr` covers both `reflect.Interface` and `reflect.Ptr`, which
the sources treat identically; `ptr none` is a nil reference.  `map` carries
its entries (pairs of key/value identities); the embedded renderers below
ignore them exactly as the source does (`case reflect.Map` prints the
placeholder).  `arr` carries the element type name (used only by the graph
renderer's `%s[]` label). -/
inductive Obj where
  | bool (b : Bool)
  | int (i : Int)
  | uint (u : Nat)
  | str (s : String)
  | arr (elemName : String) (elems : List Nat)
  | ptr (target : Option Nat)
  | strukt (name : String) (fields : List Field)
  | map (entries : List (Nat × Nat))
  | chan
  | func
  | unsafePointer
deriving DecidableEq, Repr

/-- A heap node: whether the value's type implements the custom-format
capability (and what calling it does), and the value's shape. -/
structure Node where
  hook : Option PPResult
  obj : Obj
deriving DecidableEq, Repr

/-- The heap: every identity resolves to a node. -/
abbrev Heap : Type := Nat → Node

/-- The output sink.  `written` is the text accepted so far.  `budget = none`
means writes never fail; `budget = some b` means the next `b` writes succeed
and every later write fails with error code `errCode`. -/
structure Sink where
  written : String
  budget : Option Nat
  errCode : Nat
deriving DecidableEq, Repr

/-- `pr(out, f, args...)`: format and write, panicking with the write error
on failure.  The formatted string is passed already assembled. -/
def pr (s : Sink) (t : String) : Sink × Option Fault :=
  match s.budget with
  | none => (⟨s.written ++ t, none, s.errCode⟩, none)
  | some 0 => (s, some (Fault.ioErr s.errCode))
  | some (Nat.succ b) => (⟨s.written ++ t, some b, s.errCode⟩, none)

/-- Sequencing under panic-unwinding: the continuation runs only when no
fault has occurred; otherwise the fault propagates and the sink keeps
whatever was written before the fault. -/
def pbind (r : Sink × Option Fault) (k : Sink → Sink × Option Fault) : Sink × Option Fault :=
  match r with
  | (s, none) => k s
  | (s, some f) => (s, some f)

/-- One character of `strconv.Quote` escaping. -/
def quoteChar (c : Char) : String :=
  if c = '"' then "\\\""
  else if c = '\\' then "\\\\"
  else if c = '\n' then "\\n"
  else if c = '\t' then "\\t"
  else String.singleton c

/-- Model of `strconv.Quote` (see the header for the modelled fragment). -/
def goQuote (t : String) : String :=
  "\"" ++ String.join (t.data.map quoteChar) ++ "\""

/-- Result of a top level render call (`pretty.Fprint`, `pp.Print`,
`pp.Dot`): a normal return with a `nil` error, a returned error, a panic
escaping the call, or fuel exhaustion (embedding artifact).  Each carries
the text that reached the writer. -/
inductive FprintRes where
  | ok (written : String)
  | err (e : Nat) (written : String)
  | crashed (written : String)
  | fuelOut (written : String)
deriving DecidableEq, Repr

/-- The written text carried by a render-call result. -/
def writtenOf : FprintRes → String
  | FprintRes.ok w => w
  | FprintRes.err _ w => w
  | FprintRes.crashed w => w
  | FprintRes.fuelOut w => w

end GoModel

namespace pretty

/-!
## `src/pretty.go` — the text renderer (package `pretty`)

`print` is `func print(out io.Writer, path map[reflect.Value]bool, indent
string, v reflect.Value)`.  The `path` map with `path[v] = true` before the
switch and the deferred `path[v] = false` becomes the list argument: the
recursive calls into children receive `r :: path`, and the sibling calls
receive the caller's unchanged `path` — which is exactly insert-before /
remove-after.  `printFields` and `printElems` are the field and element
loops of `printStruct` and of the `Array, Slice` case. -/

open GoModel

mutual

/-- `print` of `src/pretty.go` (lines 56–120). -/
def print (h : Heap) (fuel : Nat) (s : Sink) (path : List Nat) (indent : String)
    (v : Option Nat) : Sink × Option Fault :=
  match fuel with
  | 0 => (s, some Fault.fuelOut)
  | Nat.succ fuel =>
    match v with
    | none => pr s "nil"   -- if !v.IsValid() { pr(out, "nil"); return }
    | some r =>
      if r ∈ path then pr s "<cycle>"   -- if path[v] { pr(out, "<cycle>"); return }
      else
        -- path[v] = true; defer func() { path[v] = false }()
        match (h r).hook with
        -- if pper, ok := v.Interface().(PrettyPrinter); ok { pr(out, "%s", pper.PrettyPrint()); return }
        | some (PPResult.str t) => pr s t
        | some (PPResult.raiseErr e) => (s, some (Fault.hookErr e))
        | some PPResult.raiseOther => (s, some Fault.hookOther)
        | none =>
          match (h r).obj with
          | Obj.bool b => pr s (if b then "true" else "false")
          | Obj.int i => pr s (toString i)
          | Obj.uint u => pr s (toString u)
          | Obj.str t => pr s (goQuote t)
          | Obj.arr _ elems =>
              pbind (pr s "[") (fun s1 =>
                pbind (printElems h fuel s1 (r :: path) (indent ++ "\t") elems) (fun s2 =>
                  pr s2 (indent ++ "]")))
          | Obj.ptr none => pr s "nil"
          | Obj.ptr (some t) => print h fuel s (r :: path) indent (some t)
          | Obj.strukt name fields => printStruct h fuel s (r :: path) indent name fields
          | Obj.map _ => pr s "<map>"
          | Obj.chan => pr s "<chan>"
          | Obj.func => pr s "<function>"
          | Obj.unsafePointer => pr s "<unsafe pointer>"
          -- case reflect.Invalid is unreachable here: validity was checked on entry
termination_by structural fuel

/-- `printStruct` of `src/pretty.go` (lines 122–147).  The flags `u` (saw an
unexported field) and `e` (saw an exported field) are computed from the field
list; the Go loop sets them incrementally while printing, with the same
result. -/
def printStruct (h : Heap) (fuel : Nat) (s : Sink) (path : List Nat) (indent : String)
    (name : String) (fields : List Field) : Sink × Option Fault :=
  match fuel with
  | 0 => (s, some Fault.fuelOut)
  | Nat.succ fuel =>
    pbind (pr s (name ++ " \x7b")) (fun s1 =>
      pbind (printFields h fuel s1 path (indent ++ "\t") fields) (fun s2 =>
        let u := fields.any (fun f => !f.exported)
        let e := fields.any (fun f => f.exported)
        -- if !e { indent = ""; indent2 = "" }  (don't put '}' on a new line)
        let indentC := if e then indent else ""
        let indent2C := if e then indent ++ "\t" else ""
        pbind (if u then pr s2 (indent2C ++ "…") else (s2, none)) (fun s3 =>
          pr s3 (indentC ++ "\x7d"))))
termination_by structural fuel

/-- The field loop of `printStruct`: unexported fields are skipped, exported
fields print `indent2 ++ name ++ ": "` followed by the field value. -/
def printFields (h : Heap) (fuel : Nat) (s : Sink) (path : List Nat) (indent2 : String) :
    List Field → Sink × Option Fault
  | [] => (s, none)
  | f :: rest =>
    match fuel with
    | 0 => (s, some Fault.fuelOut)
    | Nat.succ fuel =>
      if f.exported then
        pbind (pr s (indent2 ++ f.name ++ ": ")) (fun s1 =>
          pbind (print h fuel s1 path indent2 (some f.val)) (fun s2 =>
            printFields h fuel s2 path indent2 rest))
      else printFields h fuel s path indent2 rest
termination_by structural fuel

/-- The element loop of the `Array, Slice` case of `print`. -/
def printElems (h : Heap) (fuel : Nat) (s : Sink) (path : List Nat) (indent2 : String) :
    List Nat → Sink × Option Fault
  | [] => (s, none)
  | x :: rest =>
    match fuel with
    | 0 => (s, some Fault.fuelOut)
    | Nat.succ fuel =>
      pbind (pr s indent2) (fun s1 =>
        pbind (print h fuel s1 path indent2 (some x)) (fun s2 =>
          printElems h fuel s2 path indent2 rest))
termination_by structural fuel

end

/-- `Fprint` of `src/pretty.go` (lines 28–40): run `print` with a fresh
empty path and indent `"\n"`; recover a panic carrying an `error` value into
the returned error; re-raise any other panic (`crashed` — the
`else { panic(err) }` arm of the deferred recover). -/
def Fprint (h : Heap) (fuel : Nat) (s : Sink) (v : Option Nat) : FprintRes :=
  match print h fuel s [] "\n" v with
  | (s', none) => FprintRes.ok s'.written
  | (s', some (Fault.ioErr e)) => FprintRes.err e s'.written
  | (s', some (Fault.hookErr e)) => FprintRes.err e s'.written
  | (s', some Fault.hookOther) => FprintRes.crashed s'.written
  | (s', some Fault.fuelOut) => FprintRes.fuelOut s'.written

/-- Result of the Go `String` function: the rendered string, a panic
carrying the error returned by `Fprint`, a panic escaping `Fprint` itself
(non-error fault), or fuel exhaustion. -/
inductive StringRes where
  | ok (s : String)
  | raised (e : Nat)
  | raisedOther
  | fuelOut
deriving DecidableEq, Repr

/-- `String` of `src/pretty.go` (lines 47–54), named `StringFn` here because
`String` is taken in Lean: print into a `bytes.Buffer` — a sink whose writes
never fail — and panic with the error if `Fprint` returned one. -/
def StringFn (h : Heap) (fuel : Nat) (v : Option Nat) : StringRes :=
  match Fprint h fuel ⟨"", none, 0⟩ v with
  | FprintRes.ok w => StringRes.ok w
  | FprintRes.err e _ => StringRes.raised e
  | FprintRes.crashed _ => StringRes.raisedOther
  | FprintRes.fuelOut _ => StringRes.fuelOut

end pretty

namespace pp0

/-!
## `src/pp.go` — the minimal text renderer (package `pp`, early variant)

No validity guard, no custom-format hook, no cycle detection: `print`
(lines 29–91) dispatches directly on the kind, so an invalid value reaches
the `case reflect.Invalid` arm and prints `<invalid>`, and struct printing
is inline with no ellipsis or brace-collapsing logic.  The hook field of a
heap node is irrelevant to this variant (its package never queries a
formatting capability).
-/

open GoModel

mutual

/-- `print` of `src/pp.go` (lines 29–91). -/
def print (h : Heap) (fuel : Nat) (s : Sink) (indent : String) (v : Option Nat) :
    Sink × Option Fault :=
  match fuel with
  | 0 => (s, some Fault.fuelOut)
  | Nat.succ fuel =>
    match v with
    | none => pr s "<invalid>"    -- case reflect.Invalid
    | some r =>
      match (h r).obj with
      | Obj.bool b => pr s (if b then "true" else "false")
      | Obj.int i => pr s (toString i)
      | Obj.uint u => pr s (toString u)
      | Obj.str t => pr s (goQuote t)
      | Obj.arr _ elems =>
          pbind (pr s "[") (fun s1 =>
            pbind (printElems h fuel s1 (indent ++ "\t") elems) (fun s2 =>
              pr s2 (indent ++ "]")))
      | Obj.ptr none => pr s "nil"
      | Obj.ptr (some t) => print h fuel s indent (some t)
      | Obj.strukt name fields =>
          pbind (pr s (name ++ " \x7b")) (fun s1 =>
            pbind (printFields h fuel s1 (indent ++ "\t") fields) (fun s2 =>
              pr s2 (indent ++ "\x7d")))
      | Obj.map _ => pr s "<map>"
      | Obj.chan => pr s "<chan>"
      | Obj.func => pr s "<function>"
      | Obj.unsafePointer => pr s "<unsafe pointer>"
termination_by structural fuel

/-- The field loop of the `Struct` case: unexported fields are skipped. -/
def printFields (h : Heap) (fuel : Nat) (s : Sink) (indent2 : String) :
    List Field → Sink × Option Fault
  | [] => (s, none)
  | f :: rest =>
    match fuel with
    | 0 => (s, some Fault.fuelOut)
    | Nat.succ fuel =>
      if f.exported then
        pbind (pr s (indent2 ++ f.name ++ ": ")) (fun s1 =>
          pbind (print h fuel s1 indent2 (some f.val)) (fun s2 =>
            printFields h fuel s2 indent2 rest))
      else printFields h fuel s indent2 rest
termination_by structural fuel

/-- The element loop of the `Array, Slice` case. -/
def printElems (h : Heap) (fuel : Nat) (s : Sink) (indent2 : String) :
    List Nat → Sink × Option Fault
  | [] => (s, none)
  | x :: rest =>
    match fuel with
    | 0 => (s, some Fault.fuelOut)
    | Nat.succ fuel =>
      pbind (pr s indent2) (fun s1 =>
        pbind (print h fuel s1 indent2 (some x)) (fun s2 =>
          printElems h fuel s2 indent2 rest))
termination_by structural fuel

end

/-- `Print` of `src/pp.go` (lines 17–27): the deferred recover turns a panic
carrying an `error` into the returned error; a panic carrying anything else
is consumed by `recover()` with no re-raise (there is no `else` branch), so
the call returns normally with a `nil` error and whatever was written. -/
def Print (h : Heap) (fuel : Nat) (s : Sink) (v : Option Nat) : FprintRes :=
  match print h fuel s "\n" v with
  | (s', none) => FprintRes.ok s'.written
  | (s', some (Fault.ioErr e)) => FprintRes.err e s'.written
  | (s', some (Fault.hookErr e)) => FprintRes.err e s'.written
  | (s', some Fault.hookOther) => FprintRes.ok s'.written
  | (s', some Fault.fuelOut) => FprintRes.fuelOut s'.written

end pp0

namespace pp

/-!
## `src/unnamed/part_001` — package `pp` with cycle pruning and the graph
renderer

Only the graph-renderer half (`Dot`, `dot`, `node`, `arc`, `recoverErr`) is
embedded here; the text half of that file repeats `pretty.print` with a
`fmt.Stringer` hook in place of `PrettyPrinter`.

The `seen` map from `reflect.Value` to assigned node id becomes an
association list keyed by value identity.  The
`defer func() { seen[v] = nd }()`, registered after the early-return lookup,
becomes an insertion applied to every result of the function body (`dotBody`
below is that body); the `seen[v] = n` statements that the array and struct
arms execute *before* looping over children ("Must see 'v' before recurring
on dot.") are kept in place.
-/

open GoModel

abbrev Seen : Type := List (Option Nat × Nat)

/-- `seen[v] = m`. -/
def seenInsert (seen : Seen) (k : Option Nat) (m : Nat) : Seen := (k, m) :: seen

/-- `m, ok := seen[v]`. -/
def seenFind (seen : Seen) (k : Option Nat) : Option Nat := seen.lookup k

/-- Result of `dot`: the sink, the updated seen map, and the pair
`(nd, next)` the Go function returns — or a fault unwinding with the sink's
contents at that point. -/
inductive DotRes where
  | ok (s : Sink) (seen : Seen) (nd next : Nat)
  | fault (s : Sink) (f : Fault)
deriving DecidableEq, Repr

/-- Sequencing for `dot` computations under panic-unwinding. -/
def dbind (r : DotRes) (k : Sink → Seen → Nat → Nat → DotRes) : DotRes :=
  match r with
  | DotRes.ok s seen nd next => k s seen nd next
  | DotRes.fault s f => DotRes.fault s f

/-- The text of a node declaration:
`fmt.Fprintf(out, "\tn%d [label=%s]\n", n, strconv.Quote(s))`. -/
def nodeStr (n : Nat) (label : String) : String :=
  "\tn" ++ toString n ++ " [label=" ++ goQuote label ++ "]\n"

/-- The text of an edge declaration, with the label clause omitted when the
label is empty. -/
def arcStr (src dst : Nat) (label : String) : String :=
  if label = "" then "\tn" ++ toString src ++ " -> n" ++ toString dst ++ "\n"
  else "\tn" ++ toString src ++ " -> n" ++ toString dst ++ " [label=" ++ goQuote label ++ "]\n"

/-- `node(out, n, f, args...)`: write the node declaration (panicking on a
write error) and return `(n, n+1)`. -/
def node (s : Sink) (seen : Seen) (n : Nat) (label : String) : DotRes :=
  match pr s (nodeStr n label) with
  | (s', none) => DotRes.ok s' seen n (n + 1)
  | (s', some f) => DotRes.fault s' f

/-- `arc(out, src, dst, label)`: write the edge declaration, panicking on a
write error. -/
def arc (s : Sink) (src dst : Nat) (label : String) : Sink × Option Fault :=
  pr s (arcStr src dst label)

mutual

/-- `dot` of `src/unnamed/part_001` (lines 121–193): the `seen` lookup with
early return, then the function body, then the deferred `seen[v] = nd`. -/
def dot (h : Heap) (fuel : Nat) (s : Sink) (seen : Seen) (n : Nat) (v : Option Nat) :
    DotRes :=
  match fuel with
  | 0 => DotRes.fault s Fault.fuelOut
  | Nat.succ fuel =>
    match seenFind seen v with
    | some m => DotRes.ok s seen m n   -- if m, ok := seen[v]; ok { return m, n }
    | none =>
      dbind (dotBody h fuel s seen n v) (fun s' seen' nd next =>
        DotRes.ok s' (seenInsert seen' v nd) nd next)
termination_by structural fuel

/-- The body of `dot` after the early-return lookup: the `Stringer` hook
check followed by the kind switch. -/
def dotBody (h : Heap) (fuel : Nat) (s : Sink) (seen : Seen) (n : Nat) (v : Option Nat) :
    DotRes :=
  match fuel with
  | 0 => DotRes.fault s Fault.fuelOut
  | Nat.succ fuel =>
    match v with
    | none => node s seen n "<invalid>"   -- case reflect.Invalid
    | some r =>
      match (h r).hook with
      -- if strer, ok := v.Interface().(fmt.Stringer); ok { return node(out, n, "%s", strer) }
      | some (PPResult.str t) => node s seen n t
      | some (PPResult.raiseErr e) => DotRes.fault s (Fault.hookErr e)
      | some PPResult.raiseOther => DotRes.fault s Fault.hookOther
      | none =>
        match (h r).obj with
        | Obj.bool b => node s seen n (if b then "true" else "false")
        | Obj.int i => node s seen n (toString i)
        | Obj.uint u => node s seen n (toString u)
        | Obj.str t => node s seen n (goQuote t)
        | Obj.arr elemName elems =>
            dbind (node s seen n (elemName ++ "[]")) (fun s1 seen1 _ next =>
              -- seen[v] = n  // Must see 'v' before recurring on dot.
              dbind (dotElems h fuel s1 (seenInsert seen1 v n) n next elems)
                (fun s2 seen2 _ next2 => DotRes.ok s2 seen2 n next2))
        | Obj.ptr none => node s seen n "nil"
        | Obj.ptr (some t) => dot h fuel s seen n (some t)
        | Obj.strukt name fields =>
            dbind (node s seen n name) (fun s1 seen1 _ next =>
              -- seen[v] = n  // Must see 'v' before recurring on dot.
              dbind (dotFields h fuel s1 (seenInsert seen1 v n) n next fields)
                (fun s2 seen2 _ next2 => DotRes.ok s2 seen2 n next2))
        | Obj.map _ => node s seen n "<map>"
        | Obj.chan => node s seen n "<chan>"
        | Obj.func => node s seen n "<function>"
        | Obj.unsafePointer => node s seen n "<unsafe pointer>"
termination_by structural fuel

/-- The element loop of the `Array, Slice` arm:
`m, next = dot(out, seen, next, v.Index(i)); arc(out, n, m, "")`. -/
def dotElems (h : Heap) (fuel : Nat) (s : Sink) (seen : Seen) (src next : Nat) :
    List Nat → DotRes
  | [] => DotRes.ok s seen src next
  | x :: rest =>
    match fuel with
    | 0 => DotRes.fault s Fault.fuelOut
    | Nat.succ fuel =>
      dbind (dot h fuel s seen next (some x)) (fun s1 seen1 m next1 =>
        match arc s1 src m "" with
        | (s2, none) => dotElems h fuel s2 seen1 src next1 rest
        | (s2, some fl) => DotRes.fault s2 fl)
termination_by structural fuel

/-- The field loop of the `Struct` arm: unexported fields are skipped;
otherwise `m, next = dot(out, seen, next, v.Field(i)); arc(out, n, m,
f.Name)`. -/
def dotFields (h : Heap) (fuel : Nat) (s : Sink) (seen : Seen) (src next : Nat) :
    List Field → DotRes
  | [] => DotRes.ok s seen src next
  | f :: rest =>
    match fuel with
    | 0 => DotRes.fault s Fault.fuelOut
    | Nat.succ fuel =>
      if f.exported then
        dbind (dot h fuel s seen next (some f.val)) (fun s1 seen1 m next1 =>
          match arc s1 src m f.name with
          | (s2, none) => dotFields h fuel s2 seen1 src next1 rest
          | (s2, some fl) => DotRes.fault s2 fl)
      else dotFields h fuel s seen src next rest
termination_by structural fuel

end

/-- `recoverErr` of `src/unnamed/part_001`: panics carrying an `error` value
become the returned error; other panics are re-raised. -/
def recoverErr (f : Fault) (s : Sink) : FprintRes :=
  match f with
  | Fault.ioErr e => FprintRes.err e s.written
  | Fault.hookErr e => FprintRes.err e s.written
  | Fault.hookOther => FprintRes.crashed s.written
  | Fault.fuelOut => FprintRes.fuelOut s.written

/-- `Dot` of `src/unnamed/part_001` (lines 111–119): write the `digraph`
header (returning a failed header write directly), run `dot` with a fresh
seen map and node counter 0, then write the closing brace and return its
write error, all under `recoverErr`. -/
def Dot (h : Heap) (fuel : Nat) (s : Sink) (v : Option Nat) : FprintRes :=
  match pr s "digraph \x7b\n" with
  | (s1, some f) => recoverErr f s1
  | (s1, none) =>
    match dot h fuel s1 [] 0 v with
    | DotRes.fault s2 f => recoverErr f s2
    | DotRes.ok s2 _ _ _ =>
      match pr s2 "\x7d" with
      | (s3, none) => FprintRes.ok s3.written
      | (s3, some f) => recoverErr f s3

end pp

namespace Inputs

/-!
## Concrete inputs

Heaps encoding the concrete Go values that the package's example tests and
the properties below exercise.  Identities that a heap does not mention are
mapped to an arbitrary default node; no traversal below reaches them.
-/

open GoModel

/-- `map[int]int{4: 7, 1: 5, 2: 6}` written in insertion order `4, 1, 2`
(the input of `ExamplePrint_intMap`): identity 0 is the map, identities 1–6
the key and value integers of the three entries. -/
def mapHeap : Heap := fun r =>
  match r with
  | 0 => ⟨none, Obj.map [(1, 2), (3, 4), (5, 6)]⟩
  | 1 => ⟨none, Obj.int 4⟩
  | 2 => ⟨none, Obj.int 7⟩
  | 3 => ⟨none, Obj.int 1⟩
  | 4 => ⟨none, Obj.int 5⟩
  | 5 => ⟨none, Obj.int 2⟩
  | _ => ⟨none, Obj.int 6⟩

/-- `type T struct{ a int }` with its zero value: a record whose only
member is hidden (`ExamplePrint_unexportedStructFields`). -/
def hiddenHeap : Heap := fun r =>
  match r with
  | 0 => ⟨none, Obj.strukt "T" [⟨"a", false, 1⟩]⟩
  | _ => ⟨none, Obj.int 0⟩

/-- `type T struct{}`: a record with no members (`ExamplePrint_emptyStruct`). -/
def emptyHeap : Heap := fun _ => ⟨none, Obj.strukt "T" []⟩

/-- A value whose type implements the custom-format capability, returning
the string `"custom"`. -/
def hookHeap : Heap := fun _ => ⟨some (PPResult.str "custom"), Obj.strukt "V" []⟩

/-- A value whose custom-format method panics with an error value
(error code 7). -/
def hookErrHeap : Heap := fun _ => ⟨some (PPResult.raiseErr 7), Obj.strukt "V" []⟩

/-- A value whose custom-format method panics with a value that is not an
`error`. -/
def hookOtherHeap : Heap := fun _ => ⟨some PPResult.raiseOther, Obj.strukt "V" []⟩

/-- A trivial heap of integers (used where the heap content is irrelevant,
e.g. for an invalid value). -/
def zeroHeap : Heap := fun _ => ⟨none, Obj.int 0⟩

/-- Sharing without a cycle, for the graph renderer: a record `S` whose
fields `A` and `B` hold two distinct pointers (identities 1 and 2) to the
same integer 7 (identity 3). -/
def sharedHeap : Heap := fun r =>
  match r with
  | 0 => ⟨none, Obj.strukt "S" [⟨"A", true, 1⟩, ⟨"B", true, 2⟩]⟩
  | 1 => ⟨none, Obj.ptr (some 3)⟩
  | 2 => ⟨none, Obj.ptr (some 3)⟩
  | _ => ⟨none, Obj.int 7⟩

/-- Tree-shaped sharing for the text renderer: a record `P` whose fields
`A` and `B` hold two distinct pointers to the same integer 5. -/
def treeHeap : Heap := fun r =>
  match r with
  | 0 => ⟨none, Obj.strukt "P" [⟨"A", true, 1⟩, ⟨"B", true, 2⟩]⟩
  | 1 => ⟨none, Obj.ptr (some 3)⟩
  | 2 => ⟨none, Obj.ptr (some 3)⟩
  | _ => ⟨none, Obj.int 5⟩

/-- The cyclic record of `ExamplePrint_passPointer`: identity 0 is the
passed pointer `&t`, identity 1 the struct `t` of type `T`, identity 2 the
field `X` holding `&t`, whose pointee is again identity 1. -/
def cycHeap : Heap := fun r =>
  match r with
  | 0 => ⟨none, Obj.ptr (some 1)⟩
  | 1 => ⟨none, Obj.strukt "T" [⟨"X", true, 2⟩]⟩
  | _ => ⟨none, Obj.ptr (some 1)⟩

/-- A pointer that refers to itself (`type P *P; var p P; p = &p`): a cycle
that passes through no record and no sequence. -/
def selfPtrHeap : Heap := fun _ => ⟨none, Obj.ptr (some 0)⟩

/-- A record `T` with two visible integer fields (several writes, used to
exercise a failing writer). -/
def twoFieldHeap : Heap := fun r =>
  match r with
  | 0 => ⟨none, Obj.strukt "T" [⟨"A", true, 1⟩, ⟨"B", true, 2⟩]⟩
  | 1 => ⟨none, Obj.int 1⟩
  | _ => ⟨none, Obj.int 2⟩

end Inputs

namespace pp

/-- Termination of a `Dot` render call on a never-failing sink: some fuel
bound is not exhausted.  A call that exhausts every fuel bound corresponds
to a non-terminating Go execution (each fuel unit pays for one call layer). -/
def DotTerminates (h : GoModel.Heap) (v : Option Nat) : Prop :=
  ∃ fuel, ∀ w, Dot h fuel ⟨"", none, 0⟩ v ≠ GoModel.FprintRes.fuelOut w

end pp

namespace Sim

/-!
## Simulation between runs against a failing and a healthy writer

`Ext` and `Rel` relate a traversal run against a budgeted (eventually
failing) sink with the same run against a never-failing sink, to state that
a write failure truncates the output and does nothing else.
-/

open GoModel

/-- The run `r`, started on the never-failing sink with text `w` and error
code `ec`, only appended to `w`: there is a suffix `t` with
`r.1 = ⟨w ++ t, none, ec⟩`. -/
def Ext (w : String) (ec : Nat) (r : Sink × Option Fault) : Prop :=
  ∃ t, r.1 = ⟨w ++ t, none, ec⟩

/-- Simulation between a run `r1` against a budgeted sink and the same run
`r2` against a never-failing sink, both started from the same text: either
`r1` stopped on a failed write and `r2`'s text extends `r1`'s text
(failure only truncates), or the two runs wrote the same text and finished
with the same fault, if any. -/
def Rel (ec : Nat) (r1 r2 : Sink × Option Fault) : Prop :=
  r1.1.errCode = ec ∧ r2.1.errCode = ec ∧ r2.1.budget = none ∧
  (∃ b, r1.1.budget = some b) ∧
  ((r1.2 = some (Fault.ioErr ec) ∧ ∃ t, r2.1.written = r1.1.written ++ t)
    ∨ (r1.2 = r2.2 ∧ r1.1.written = r2.1.written))

end Sim

/-!
## Properties

Theorems about the embedded renderers.  Each property carrying a claim of
the specification is stated over the definitions above; closed statements
evaluate the embedded code on the concrete inputs of `Inputs`.
-/

section Properties

open GoModel

/-- All-hidden field lists print nothing: the field loop of `printStruct`
skips every unexported field. -/
theorem printFields_all_hidden (h : Heap) (ind2 : String) :
    ∀ (fields : List Field) (fuel : Nat) (s : Sink) (path : List Nat),
      (∀ f ∈ fields, f.exported = false) → fields.length < fuel →
      pretty.printFields h fuel s path ind2 fields = (s, none) := by
  intro fields
  induction fields with
  | nil => intro fuel s path _ _; simp [pretty.printFields]
  | cons f rest ih =>
    intro fuel s path hall hlen
    cases fuel with
    | zero => exact absurd hlen (by omega)
    | succ fu =>
      have hf : f.exported = false := hall f (by simp)
      simp only [pretty.printFields, hf, Bool.false_eq_true, if_false]
      exact ih fu s path (fun g hg => hall g (by simp [hg])) (by simp at hlen; omega)

/-- Claim C2 (amended): a record none of whose members is visible renders on
a single line, as `Name {}` when it has no members at all and as `Name {…}`
(ellipsis marker, collapsed braces) when all its members are hidden — in
both cases with a space between the type name and the opening brace. -/
theorem struct_no_visible_single_line :
    ∀ (h : Heap) (name : String) (fields : List Field) (fuel : Nat) (w : String) (ec : Nat)
      (path : List Nat) (indent : String),
      (∀ f ∈ fields, f.exported = false) → fields.length + 1 < fuel →
      pretty.printStruct h fuel ⟨w, none, ec⟩ path indent name fields =
        (⟨w ++ name ++ (if fields.isEmpty then " \x7b\x7d" else " \x7b…\x7d"), none, ec⟩,
          none) := by
  intro h name fields fuel w ec path indent hall hlen
  cases fuel with
  | zero => exact absurd hlen (by omega)
  | succ fu =>
    have hfl : pretty.printFields h fu ⟨w ++ (name ++ " \x7b"), none, ec⟩ path
        (indent ++ "\t") fields = (⟨w ++ (name ++ " \x7b"), none, ec⟩, none) :=
      printFields_all_hidden h (indent ++ "\t") fields fu _ path hall (by omega)
    have hu : fields.any (fun f => !f.exported) = !fields.isEmpty := by
      cases fields with
      | nil => rfl
      | cons f rest =>
        simp [List.any_cons, hall f (by simp)]
    have he : fields.any (fun f => f.exported) = false := by
      simp only [List.any_eq_false]
      intro f hf
      simp [hall f hf]
    simp only [pretty.printStruct, pr, pbind, hfl, hu, he, if_false, Bool.false_eq_true]
    cases fields with
    | nil =>
      simp only [List.isEmpty_nil, Bool.not_true, if_false, if_true, Bool.false_eq_true]
      simp only [String.append_assoc]
      rfl
    | cons f rest =>
      simp only [List.isEmpty_cons, Bool.not_false, if_true, pr, pbind, if_false,
        Bool.false_eq_true]
      simp only [String.append_assoc]
      rfl

/-- Witness for `struct_no_visible_single_line` at the record
`type T struct{ a int }`. -/
theorem struct_no_visible_single_line_witness :
    (∀ f ∈ [GoModel.Field.mk "a" false 1], f.exported = false) ∧ (1 + 1 < 8) ∧
    pretty.printStruct Inputs.hiddenHeap 8 ⟨"", none, 0⟩ [0] "\n" "T"
        [GoModel.Field.mk "a" false 1] =
      (⟨"" ++ "T" ++
          (if [GoModel.Field.mk "a" false 1].isEmpty then " \x7b\x7d" else " \x7b…\x7d"),
        none, 0⟩, none) :=
  ⟨by decide, by decide,
    struct_no_visible_single_line Inputs.hiddenHeap "T" [GoModel.Field.mk "a" false 1] 8 "" 0
      [0] "\n" (by decide) (by decide)⟩

/-- Counterexample to claim C2 as stated: a record with one hidden member
and no visible member renders as `T {…}` on a single line — the brace does
collapse — and the empty record renders as `T {}` with a space, not
`T{}`. -/
theorem hiddenOnly_collapses_counterexample :
    pretty.Fprint Inputs.hiddenHeap 8 ⟨"", none, 0⟩ (some 0) = FprintRes.ok "T \x7b…\x7d"
    ∧ '\n' ∉ ("T \x7b…\x7d").data
    ∧ pretty.Fprint Inputs.emptyHeap 8 ⟨"", none, 0⟩ (some 0) = FprintRes.ok "T \x7b\x7d"
    ∧ "T \x7b\x7d" ≠ "T\x7b\x7d" := by
  exact ⟨by decide, by decide, by decide, by decide⟩

/-- Claim C1, evaluated on the code: the text renderers of `pretty.go` and
`pp.go` render the map `map[int]int{4: 7, 1: 5, 2: 6}` as the placeholder
`<map>` — no entries, no sorting.  (The package's own example tests,
`ExamplePrint_intMap` and friends, expect sorted `key: value` lines.) -/
theorem map_renders_placeholder :
    pretty.Fprint Inputs.mapHeap 8 ⟨"", none, 0⟩ (some 0) = FprintRes.ok "<map>"
    ∧ pp0.Print Inputs.mapHeap 8 ⟨"", none, 0⟩ (some 0) = FprintRes.ok "<map>" :=
  ⟨rfl, rfl⟩

/-- Claim C3 (amended): the custom-format hook is consulted only after the
cycle check; when the value's identity is not on the traversal path the
renderer emits exactly the hook's string, performing no structural
traversal, and a whole `Fprint` call on such a value returns exactly that
string. -/
theorem hook_verbatim_when_not_on_path :
    (∀ (h : Heap) (r : Nat) (t : String) (fuel : Nat) (s : Sink) (path : List Nat)
        (indent : String),
        (h r).hook = some (PPResult.str t) → r ∉ path →
        pretty.print h (fuel + 1) s path indent (some r) = pr s t)
    ∧ (∀ (h : Heap) (r : Nat) (t : String) (fuel : Nat) (w : String) (ec : Nat),
        (h r).hook = some (PPResult.str t) →
        pretty.Fprint h (fuel + 1) ⟨w, none, ec⟩ (some r) = FprintRes.ok (w ++ t)) := by
  constructor
  · intro h r t fuel s path indent hr hnp
    simp [pretty.print, hr, hnp]
  · intro h r t fuel w ec hr
    simp [pretty.Fprint, pretty.print, hr, pr]

/-- Witness for `hook_verbatim_when_not_on_path` at a concrete
custom-formatted value. -/
theorem hook_verbatim_when_not_on_path_witness :
    (Inputs.hookHeap 0).hook = some (PPResult.str "custom")
    ∧ (0 : Nat) ∉ ([] : List Nat)
    ∧ pretty.print Inputs.hookHeap 3 ⟨"", none, 0⟩ [] "\n" (some 0) =
        pr ⟨"", none, 0⟩ "custom" :=
  ⟨rfl, by decide,
    hook_verbatim_when_not_on_path.1 Inputs.hookHeap 0 "custom" 2 ⟨"", none, 0⟩ [] "\n" rfl
      (by decide)⟩

/-- Counterexample to claim C3 as stated: when the identity of a
custom-formatted value is already on the traversal path, `print` emits the
`<cycle>` marker, not the hook's string — the cycle check precedes the hook
check. -/
theorem hook_after_cycle_counterexample :
    (pretty.print Inputs.hookHeap 5 ⟨"", none, 0⟩ [0] "\n" (some 0)).1.written = "<cycle>"
    ∧ "<cycle>" ≠ "custom" := by
  exact ⟨by decide, by decide⟩

/-- Claim C4: a value already in the seen map is neither re-emitted nor
re-traversed — `dot` returns the stored node id with nothing written — and,
end to end, a record whose two fields point at the same integer produces one
shared node with two labeled edges into it. -/
theorem dot_seen_short_circuit :
    (∀ (h : Heap) (fuel : Nat) (s : Sink) (seen : pp.Seen) (n : Nat) (v : Option Nat)
        (m : Nat),
        pp.seenFind seen v = some m →
        pp.dot h (fuel + 1) s seen n v = pp.DotRes.ok s seen m n)
    ∧ pp.Dot Inputs.sharedHeap 32 ⟨"", none, 0⟩ (some 0) =
        FprintRes.ok ("digraph \x7b\n\tn0 [label=\"S\"]\n\tn1 [label=\"7\"]\n" ++
          "\tn0 -> n1 [label=\"A\"]\n\tn0 -> n1 [label=\"B\"]\n\x7d") := by
  constructor
  · intro h fuel s seen n v m hm
    simp [pp.dot, hm]
  · rfl

/-- Witness for `dot_seen_short_circuit` at a seen map that already holds
the shared integer of `sharedHeap`. -/
theorem dot_seen_short_circuit_witness :
    pp.seenFind [(some 3, 1)] (some 3) = some 1
    ∧ pp.dot Inputs.sharedHeap 9 ⟨"", none, 0⟩ [(some 3, 1)] 2 (some 3) =
        pp.DotRes.ok ⟨"", none, 0⟩ [(some 3, 1)] 1 2 :=
  ⟨by decide,
    dot_seen_short_circuit.1 Inputs.sharedHeap 8 ⟨"", none, 0⟩ [(some 3, 1)] 2 (some 3) 1
      (by decide)⟩

/-- On the self-referencing pointer, `dot` (and its body) exhaust every fuel
bound: the pointer arm recurses into the pointee before anything is entered
into the seen map, so the self-cycle is never cut. -/
theorem dot_selfPtr_all_fuel :
    ∀ (fuel : Nat) (s : Sink) (n : Nat),
      pp.dot Inputs.selfPtrHeap fuel s [] n (some 0) = pp.DotRes.fault s Fault.fuelOut
      ∧ pp.dotBody Inputs.selfPtrHeap fuel s [] n (some 0) =
          pp.DotRes.fault s Fault.fuelOut := by
  intro fuel
  induction fuel with
  | zero => intro s n; exact ⟨rfl, rfl⟩
  | succ fu ih =>
    intro s n
    constructor
    · simp [pp.dot, pp.seenFind, pp.dbind, (ih s n).2]
    · simp [pp.dotBody, Inputs.selfPtrHeap, (ih s n).1]

/-- Counterexample to claim C5 as stated: the graph render entry point does
not terminate on every cyclic input — on a pointer that refers to itself it
exhausts every fuel bound. -/
theorem dot_pointer_cycle_diverges : ¬ pp.DotTerminates Inputs.selfPtrHeap (some 0) := by
  rintro ⟨fuel, hw⟩
  have hd := (dot_selfPtr_all_fuel fuel ⟨"digraph \x7b\n", none, 0⟩ 0).1
  have hDot : pp.Dot Inputs.selfPtrHeap fuel ⟨"", none, 0⟩ (some 0) =
      FprintRes.fuelOut "digraph \x7b\n" := by
    simp [pp.Dot, pr, hd, pp.recoverErr]
  exact hw _ hDot

/-- Claim C5 (amended): the Seen-Map discipline of the graph renderer.  For
every heap, a record (and likewise a sequence) that is not yet in the seen
map is entered into it — `seen[v] = n`, its assigned node id — *before* its
children are traversed; and for every heap, a value recorded in the seen map
is short-circuited by the lookup on any revisit, returning its assigned node
id with nothing written and no re-traversal.  Consequently the canonical
self-referential record terminates and renders as one node with a self-edge.
(Termination fails for a cycle of pure pointer indirection; see the
counterexample.) -/
theorem dot_record_cycle_terminates :
    (∀ (h : Heap) (fuel : Nat) (s : Sink) (seen : pp.Seen) (n r : Nat)
        (name : String) (fields : List GoModel.Field),
        pp.seenFind seen (some r) = none → (h r).hook = none →
        (h r).obj = Obj.strukt name fields →
        pp.dot h (fuel + 2) s seen n (some r) =
          pp.dbind
            (pp.dbind (pp.node s seen n name) (fun s1 seen1 _ next =>
              pp.dbind
                (pp.dotFields h fuel s1 (pp.seenInsert seen1 (some r) n) n next fields)
                (fun s2 seen2 _ next2 => pp.DotRes.ok s2 seen2 n next2)))
            (fun s3 seen3 nd next3 =>
              pp.DotRes.ok s3 (pp.seenInsert seen3 (some r) nd) nd next3))
    ∧ (∀ (h : Heap) (fuel : Nat) (s : Sink) (seen : pp.Seen) (n r : Nat)
        (elemName : String) (elems : List Nat),
        pp.seenFind seen (some r) = none → (h r).hook = none →
        (h r).obj = Obj.arr elemName elems →
        pp.dot h (fuel + 2) s seen n (some r) =
          pp.dbind
            (pp.dbind (pp.node s seen n (elemName ++ "[]")) (fun s1 seen1 _ next =>
              pp.dbind
                (pp.dotElems h fuel s1 (pp.seenInsert seen1 (some r) n) n next elems)
                (fun s2 seen2 _ next2 => pp.DotRes.ok s2 seen2 n next2)))
            (fun s3 seen3 nd next3 =>
              pp.DotRes.ok s3 (pp.seenInsert seen3 (some r) nd) nd next3))
    ∧ (∀ (h : Heap) (fuel : Nat) (s : Sink) (seen : pp.Seen) (n nd : Nat) (v : Option Nat),
        pp.dot h (fuel + 1) s (pp.seenInsert seen v nd) n v =
          pp.DotRes.ok s (pp.seenInsert seen v nd) nd n)
    ∧ pp.Dot Inputs.cycHeap 32 ⟨"", none, 0⟩ (some 0) =
        FprintRes.ok "digraph \x7b\n\tn0 [label=\"T\"]\n\tn0 -> n0 [label=\"X\"]\n\x7d"
    ∧ pp.DotTerminates Inputs.cycHeap (some 0) := by
  have hd : pp.Dot Inputs.cycHeap 32 ⟨"", none, 0⟩ (some 0) =
      FprintRes.ok "digraph \x7b\n\tn0 [label=\"T\"]\n\tn0 -> n0 [label=\"X\"]\n\x7d" := by
    rfl
  refine ⟨?_, ?_, ?_, hd, ⟨32, fun w h => by rw [hd] at h; simp at h⟩⟩
  · intro h fuel s seen n r name fields hseen hhook hobj
    simp [pp.dot, pp.dotBody, hseen, hhook, hobj]
  · intro h fuel s seen n r elemName elems hseen hhook hobj
    simp [pp.dot, pp.dotBody, hseen, hhook, hobj]
  · intro h fuel s seen n nd v
    simp [pp.dot, pp.seenFind, pp.seenInsert, List.lookup]

/-- Witness for `dot_record_cycle_terminates` at the record of the cyclic
heap: its struct node is entered into the empty seen map before its field
is traversed. -/
theorem dot_record_cycle_terminates_witness :
    pp.seenFind ([] : pp.Seen) (some 1) = none
    ∧ (Inputs.cycHeap 1).hook = none
    ∧ (Inputs.cycHeap 1).obj = Obj.strukt "T" [GoModel.Field.mk "X" true 2]
    ∧ pp.dot Inputs.cycHeap 9 ⟨"", none, 0⟩ [] 0 (some 1) =
        pp.dbind
          (pp.dbind (pp.node ⟨"", none, 0⟩ [] 0 "T") (fun s1 seen1 _ next =>
            pp.dbind
              (pp.dotFields Inputs.cycHeap 7 s1 (pp.seenInsert seen1 (some 1) 0) 0 next
                [GoModel.Field.mk "X" true 2])
              (fun s2 seen2 _ next2 => pp.DotRes.ok s2 seen2 0 next2)))
          (fun s3 seen3 nd next3 =>
            pp.DotRes.ok s3 (pp.seenInsert seen3 (some 1) nd) nd next3) :=
  ⟨by decide, rfl, rfl,
    dot_record_cycle_terminates.1 Inputs.cycHeap 7 ⟨"", none, 0⟩ [] 0 1 "T"
      [GoModel.Field.mk "X" true 2] (by decide) rfl rfl⟩

/-- Claim C7: printing a pointer to a record of type `T` whose field `X`
points back at that record yields exactly `T {`, newline, one tab,
`X: <cycle>`, newline, `}`. -/
theorem fprint_self_cycle_output :
    pretty.Fprint Inputs.cycHeap 32 ⟨"", none, 0⟩ (some 0) =
      FprintRes.ok "T \x7b\n\tX: <cycle>\n\x7d" := rfl

/-- Claim C8: the traversal path discipline of the text renderer — an
identity already among the ancestors short-circuits to `<cycle>`; a pointer
or record is traversed with its own identity pushed onto the path while the
continuation after the recursion (the next field of the same struct) uses
the unchanged caller path; and tree-shaped sharing of one identity by two
sibling fields renders the shared value twice with no `<cycle>` marker. -/
theorem path_push_pop_cycle_marker :
    (∀ (h : Heap) (fuel : Nat) (s : Sink) (path : List Nat) (indent : String) (r : Nat),
        r ∈ path → pretty.print h (fuel + 1) s path indent (some r) = pr s "<cycle>")
    ∧ (∀ (h : Heap) (fuel : Nat) (s : Sink) (path : List Nat) (indent : String) (r t : Nat),
        r ∉ path → (h r).hook = none → (h r).obj = Obj.ptr (some t) →
        pretty.print h (fuel + 1) s path indent (some r) =
          pretty.print h fuel s (r :: path) indent (some t))
    ∧ (∀ (h : Heap) (fuel : Nat) (s : Sink) (path : List Nat) (indent : String) (r : Nat)
        (name : String) (fields : List Field),
        r ∉ path → (h r).hook = none → (h r).obj = Obj.strukt name fields →
        pretty.print h (fuel + 1) s path indent (some r) =
          pretty.printStruct h fuel s (r :: path) indent name fields)
    ∧ (∀ (h : Heap) (fuel : Nat) (s : Sink) (path : List Nat) (indent2 : String)
        (f : Field) (rest : List Field),
        f.exported = true →
        pretty.printFields h (fuel + 1) s path indent2 (f :: rest) =
          pbind (pr s (indent2 ++ f.name ++ ": ")) (fun s1 =>
            pbind (pretty.print h fuel s1 path indent2 (some f.val)) (fun s2 =>
              pretty.printFields h fuel s2 path indent2 rest)))
    ∧ pretty.Fprint Inputs.treeHeap 32 ⟨"", none, 0⟩ (some 0) =
        FprintRes.ok "P \x7b\n\tA: 5\n\tB: 5\n\x7d" := by
  refine ⟨?_, ?_, ?_, ?_, rfl⟩
  · intro h fuel s path indent r hmem
    simp [pretty.print, hmem]
  · intro h fuel s path indent r t hnp hhook hobj
    simp [pretty.print, hnp, hhook, hobj]
  · intro h fuel s path indent r name fields hnp hhook hobj
    simp [pretty.print, hnp, hhook, hobj]
  · intro h fuel s path indent2 f rest hf
    simp [pretty.printFields, hf]

/-- Witness for `path_push_pop_cycle_marker` at a concrete on-path
identity. -/
theorem path_push_pop_cycle_marker_witness :
    (0 : Nat) ∈ [0]
    ∧ pretty.print Inputs.treeHeap 4 ⟨"", none, 0⟩ [0] "\n" (some 0) =
        pr ⟨"", none, 0⟩ "<cycle>" :=
  ⟨by decide, path_push_pop_cycle_marker.1 Inputs.treeHeap 3 ⟨"", none, 0⟩ [0] "\n" 0
    (by decide)⟩

/-- Claim C9 (amended): an invalid value renders as `nil` in the `pretty`
renderer (the validity guard precedes the kind switch), but the minimal `pp`
variant has no such guard and renders it as `<invalid>`. -/
theorem invalid_rendering_by_variant :
    (∀ (h : Heap) (fuel : Nat) (s : Sink) (path : List Nat) (indent : String),
        pretty.print h (fuel + 1) s path indent none = pr s "nil")
    ∧ (∀ (h : Heap) (fuel : Nat) (s : Sink) (indent : String),
        pp0.print h (fuel + 1) s indent none = pr s "<invalid>")
    ∧ (∀ (h : Heap) (fuel : Nat) (w : String) (ec : Nat),
        pretty.Fprint h (fuel + 1) ⟨w, none, ec⟩ none = FprintRes.ok (w ++ "nil")) := by
  refine ⟨?_, ?_, ?_⟩
  · intro h fuel s path indent
    simp [pretty.print]
  · intro h fuel s indent
    simp [pp0.print]
  · intro h fuel w ec
    simp [pretty.Fprint, pretty.print, pr]

/-- Counterexample to claim C9 as stated: the minimal `pp` variant's render
entry point prints `<invalid>`, not `nil`, for the untyped nil interface. -/
theorem print_invalid_counterexample :
    pp0.Print Inputs.zeroHeap 8 ⟨"", none, 0⟩ none = FprintRes.ok "<invalid>"
    ∧ "<invalid>" ≠ "nil" := by
  exact ⟨by decide, by decide⟩

/-- Claim C10: `String` never returns an error value — when the underlying
`Fprint` into the never-failing buffer returns an error, `String` panics
with exactly that error. -/
theorem stringFn_raises_on_error :
    ∀ (h : Heap) (fuel : Nat) (v : Option Nat) (e : Nat) (w : String),
      pretty.Fprint h fuel ⟨"", none, 0⟩ v = FprintRes.err e w →
      pretty.StringFn h fuel v = pretty.StringRes.raised e := by
  intro h fuel v e w hf
  simp [pretty.StringFn, hf]

/-- Witness for `stringFn_raises_on_error`: a value whose custom-format
method panics with error 7 makes `Fprint` return that error and `String`
panic with it. -/
theorem stringFn_raises_on_error_witness :
    pretty.Fprint Inputs.hookErrHeap 3 ⟨"", none, 0⟩ (some 0) = FprintRes.err 7 ""
    ∧ pretty.StringFn Inputs.hookErrHeap 3 (some 0) = pretty.StringRes.raised 7 :=
  ⟨by decide,
    stringFn_raises_on_error Inputs.hookErrHeap 3 (some 0) 7 "" (by decide)⟩

/-- `pr` from a healthy sink only appends. -/
theorem ext_pr (w : String) (ec : Nat) (t : String) :
    Sim.Ext w ec (pr ⟨w, none, ec⟩ t) :=
  ⟨t, rfl⟩

/-- A result that kept the healthy sink untouched is an extension by `""`. -/
theorem ext_stay (w : String) (ec : Nat) (f : Option Fault) :
    Sim.Ext w ec ((⟨w, none, ec⟩ : Sink), f) :=
  ⟨"", by simp [String.append_empty]⟩

/-- `Ext` composes along `pbind`. -/
theorem ext_pbind {w : String} {ec : Nat} {r : Sink × Option Fault}
    {k : Sink → Sink × Option Fault} (h1 : Sim.Ext w ec r)
    (h2 : ∀ w2, Sim.Ext w2 ec (k (⟨w2, none, ec⟩ : Sink))) :
    Sim.Ext w ec (pbind r k) := by
  obtain ⟨t, ht⟩ := h1
  obtain ⟨s, f⟩ := r
  simp only at ht
  subst ht
  cases f with
  | none =>
    obtain ⟨t2, ht2⟩ := h2 (w ++ t)
    exact ⟨t ++ t2, by simp [pbind, ht2, String.append_assoc]⟩
  | some fl => exact ⟨t, by simp [pbind]⟩

/-- `pr` against a budgeted sink simulates `pr` against a healthy sink. -/
theorem rel_pr (w : String) (ec : Nat) (b : Nat) (t : String) :
    Sim.Rel ec (pr ⟨w, some b, ec⟩ t) (pr ⟨w, none, ec⟩ t) := by
  cases b with
  | zero => exact ⟨rfl, rfl, rfl, ⟨0, rfl⟩, Or.inl ⟨rfl, ⟨t, rfl⟩⟩⟩
  | succ b2 => exact ⟨rfl, rfl, rfl, ⟨b2, rfl⟩, Or.inr ⟨rfl, rfl⟩⟩

/-- Two identical outcomes that did not touch their sinks are related. -/
theorem rel_stay (w : String) (ec : Nat) (b : Nat) (f : Option Fault) :
    Sim.Rel ec ((⟨w, some b, ec⟩ : Sink), f) ((⟨w, none, ec⟩ : Sink), f) :=
  ⟨rfl, rfl, rfl, ⟨b, rfl⟩, Or.inr ⟨rfl, rfl⟩⟩

/-- `Rel` composes along `pbind`, provided the continuations stay related
and the healthy continuation only appends. -/
theorem rel_pbind {ec : Nat} {r1 r2 : Sink × Option Fault}
    {k1 k2 : Sink → Sink × Option Fault}
    (h : Sim.Rel ec r1 r2)
    (hk : ∀ w2 b2, Sim.Rel ec (k1 ⟨w2, some b2, ec⟩) (k2 ⟨w2, none, ec⟩))
    (hm : ∀ w2, Sim.Ext w2 ec (k2 (⟨w2, none, ec⟩ : Sink))) :
    Sim.Rel ec (pbind r1 k1) (pbind r2 k2) := by
  obtain ⟨s1, f1⟩ := r1
  obtain ⟨s2, f2⟩ := r2
  obtain ⟨w1, bu1, ee1⟩ := s1
  obtain ⟨w2, bu2, ee2⟩ := s2
  obtain ⟨he1, he2, hb2, ⟨b1, hb1⟩, hcase⟩ := h
  dsimp only at he1 he2 hb2 hb1
  subst he1
  subst he2
  subst hb2
  subst hb1
  rcases hcase with ⟨hf1, t, ht⟩ | ⟨hff, hw⟩
  · dsimp only at hf1 ht
    subst hf1
    subst ht
    cases f2 with
    | some fl2 =>
      exact ⟨rfl, rfl, rfl, ⟨b1, rfl⟩, Or.inl ⟨rfl, ⟨t, rfl⟩⟩⟩
    | none =>
      obtain ⟨t2, ht2⟩ := hm (w1 ++ t)
      dsimp only [pbind]
      refine ⟨rfl, ?_, ?_, ⟨b1, rfl⟩, Or.inl ⟨rfl, ⟨t ++ t2, ?_⟩⟩⟩
      · rw [ht2]
      · rw [ht2]
      · rw [ht2]
        exact String.append_assoc w1 t t2
  · dsimp only at hff hw
    subst hw
    cases f1 with
    | some fl =>
      have hf2 : f2 = some fl := hff.symm
      subst hf2
      exact ⟨rfl, rfl, rfl, ⟨b1, rfl⟩, Or.inr ⟨rfl, rfl⟩⟩
    | none =>
      have hf2 : f2 = none := hff.symm
      subst hf2
      dsimp only [pbind]
      exact hk w1 b1

/-- Every run of the text renderer against a healthy sink only appends to
the sink and leaves it healthy. -/
theorem print_mono_all :
    ∀ fuel : Nat,
      (∀ (h : Heap) (path : List Nat) (ind : String) (v : Option Nat) (w : String) (ec : Nat),
        Sim.Ext w ec (pretty.print h fuel ⟨w, none, ec⟩ path ind v))
      ∧ (∀ (h : Heap) (path : List Nat) (ind : String) (name : String)
          (fields : List GoModel.Field) (w : String) (ec : Nat),
        Sim.Ext w ec (pretty.printStruct h fuel ⟨w, none, ec⟩ path ind name fields))
      ∧ (∀ (h : Heap) (path : List Nat) (ind2 : String) (fields : List GoModel.Field)
          (w : String) (ec : Nat),
        Sim.Ext w ec (pretty.printFields h fuel ⟨w, none, ec⟩ path ind2 fields))
      ∧ (∀ (h : Heap) (path : List Nat) (ind2 : String) (elems : List Nat)
          (w : String) (ec : Nat),
        Sim.Ext w ec (pretty.printElems h fuel ⟨w, none, ec⟩ path ind2 elems)) := by
  intro fuel
  induction fuel with
  | zero =>
    refine ⟨?_, ?_, ?_, ?_⟩
    · intro h path ind v w ec
      simp only [pretty.print]
      exact ext_stay w ec _
    · intro h path ind name fields w ec
      simp only [pretty.printStruct]
      exact ext_stay w ec _
    · intro h path ind2 fields w ec
      cases fields with
      | nil => simp only [pretty.printFields]; exact ext_stay w ec _
      | cons f rest => simp only [pretty.printFields]; exact ext_stay w ec _
    · intro h path ind2 elems w ec
      cases elems with
      | nil => simp only [pretty.printElems]; exact ext_stay w ec _
      | cons x rest => simp only [pretty.printElems]; exact ext_stay w ec _
  | succ fu ih =>
    obtain ⟨ihP, ihS, ihF, ihE⟩ := ih
    refine ⟨?_, ?_, ?_, ?_⟩
    · intro h path ind v w ec
      cases v with
      | none => simp only [pretty.print]; exact ext_pr w ec "nil"
      | some r =>
        by_cases hmem : r ∈ path
        · simp [pretty.print, hmem]
          exact ext_pr w ec "<cycle>"
        · cases hh : (h r).hook with
          | some pres =>
            cases pres with
            | str t =>
              simp [pretty.print, hmem, hh]
              exact ext_pr w ec t
            | raiseErr e =>
              simp [pretty.print, hmem, hh]
              exact ext_stay w ec _
            | raiseOther =>
              simp [pretty.print, hmem, hh]
              exact ext_stay w ec _
          | none =>
            cases ho : (h r).obj with
            | bool b => simp [pretty.print, hmem, hh, ho]; exact ext_pr w ec _
            | int i => simp [pretty.print, hmem, hh, ho]; exact ext_pr w ec _
            | uint u => simp [pretty.print, hmem, hh, ho]; exact ext_pr w ec _
            | str t => simp [pretty.print, hmem, hh, ho]; exact ext_pr w ec _
            | arr en elems =>
              simp [pretty.print, hmem, hh, ho]
              exact ext_pbind (ext_pr w ec "[")
                (fun w2 => ext_pbind (ihE h (r :: path) (ind ++ "\t") elems w2 ec)
                  (fun w3 => ext_pr w3 ec (ind ++ "]")))
            | ptr target =>
              cases target with
              | none => simp [pretty.print, hmem, hh, ho]; exact ext_pr w ec "nil"
              | some tg =>
                simp [pretty.print, hmem, hh, ho]
                exact ihP h (r :: path) ind (some tg) w ec
            | strukt nm fs =>
              simp [pretty.print, hmem, hh, ho]
              exact ihS h (r :: path) ind nm fs w ec
            | map es => simp [pretty.print, hmem, hh, ho]; exact ext_pr w ec _
            | chan => simp [pretty.print, hmem, hh, ho]; exact ext_pr w ec _
            | func => simp [pretty.print, hmem, hh, ho]; exact ext_pr w ec _
            | unsafePointer => simp [pretty.print, hmem, hh, ho]; exact ext_pr w ec _
    · intro h path ind name fields w ec
      simp only [pretty.printStruct]
      refine ext_pbind (ext_pr w ec _) (fun w2 => ?_)
      refine ext_pbind (ihF h path (ind ++ "\t") fields w2 ec) (fun w3 => ?_)
      by_cases hu : fields.any (fun f => !f.exported) = true
      · simp only [hu, if_true]
        exact ext_pbind (ext_pr w3 ec _) (fun w4 => ext_pr w4 ec _)
      · simp only [hu, Bool.false_eq_true, if_false]
        exact ext_pbind (ext_stay w3 ec none) (fun w4 => ext_pr w4 ec _)
    · intro h path ind2 fields w ec
      cases fields with
      | nil => simp only [pretty.printFields]; exact ext_stay w ec _
      | cons f rest =>
        by_cases hx : f.exported = true
        · simp [pretty.printFields, hx]
          exact ext_pbind (ext_pr w ec _)
            (fun w2 => ext_pbind (ihP h path ind2 (some f.val) w2 ec)
              (fun w3 => ihF h path ind2 rest w3 ec))
        · simp [pretty.printFields, hx]
          exact ihF h path ind2 rest w ec
    · intro h path ind2 elems w ec
      cases elems with
      | nil => simp only [pretty.printElems]; exact ext_stay w ec _
      | cons x rest =>
        simp only [pretty.printElems]
        exact ext_pbind (ext_pr w ec _)
          (fun w2 => ext_pbind (ihP h path ind2 (some x) w2 ec)
            (fun w3 => ihE h path ind2 rest w3 ec))

/-- Every run of the text renderer against a budgeted sink simulates the
same run against a healthy sink: a write failure only truncates the
output. -/
theorem print_rel_all :
    ∀ fuel : Nat,
      (∀ (h : Heap) (path : List Nat) (ind : String) (v : Option Nat) (w : String)
          (ec b : Nat),
        Sim.Rel ec (pretty.print h fuel ⟨w, some b, ec⟩ path ind v)
          (pretty.print h fuel ⟨w, none, ec⟩ path ind v))
      ∧ (∀ (h : Heap) (path : List Nat) (ind : String) (name : String)
          (fields : List GoModel.Field) (w : String) (ec b : Nat),
        Sim.Rel ec (pretty.printStruct h fuel ⟨w, some b, ec⟩ path ind name fields)
          (pretty.printStruct h fuel ⟨w, none, ec⟩ path ind name fields))
      ∧ (∀ (h : Heap) (path : List Nat) (ind2 : String) (fields : List GoModel.Field)
          (w : String) (ec b : Nat),
        Sim.Rel ec (pretty.printFields h fuel ⟨w, some b, ec⟩ path ind2 fields)
          (pretty.printFields h fuel ⟨w, none, ec⟩ path ind2 fields))
      ∧ (∀ (h : Heap) (path : List Nat) (ind2 : String) (elems : List Nat)
          (w : String) (ec b : Nat),
        Sim.Rel ec (pretty.printElems h fuel ⟨w, some b, ec⟩ path ind2 elems)
          (pretty.printElems h fuel ⟨w, none, ec⟩ path ind2 elems)) := by
  intro fuel
  induction fuel with
  | zero =>
    refine ⟨?_, ?_, ?_, ?_⟩
    · intro h path ind v w ec b
      simp only [pretty.print]
      exact rel_stay w ec b _
    · intro h path ind name fields w ec b
      simp only [pretty.printStruct]
      exact rel_stay w ec b _
    · intro h path ind2 fields w ec b
      cases fields with
      | nil => simp only [pretty.printFields]; exact rel_stay w ec b _
      | cons f rest => simp only [pretty.printFields]; exact rel_stay w ec b _
    · intro h path ind2 elems w ec b
      cases elems with
      | nil => simp only [pretty.printElems]; exact rel_stay w ec b _
      | cons x rest => simp only [pretty.printElems]; exact rel_stay w ec b _
  | succ fu ih =>
    obtain ⟨ihP, ihS, ihF, ihE⟩ := ih
    obtain ⟨mP, mS, mF, mE⟩ := print_mono_all fu
    refine ⟨?_, ?_, ?_, ?_⟩
    · intro h path ind v w ec b
      cases v with
      | none => simp only [pretty.print]; exact rel_pr w ec b "nil"
      | some r =>
        by_cases hmem : r ∈ path
        · simp [pretty.print, hmem]
          exact rel_pr w ec b "<cycle>"
        · cases hh : (h r).hook with
          | some pres =>
            cases pres with
            | str t =>
              simp [pretty.print, hmem, hh]
              exact rel_pr w ec b t
            | raiseErr e =>
              simp [pretty.print, hmem, hh]
              exact rel_stay w ec b _
            | raiseOther =>
              simp [pretty.print, hmem, hh]
              exact rel_stay w ec b _
          | none =>
            cases ho : (h r).obj with
            | bool bb => simp [pretty.print, hmem, hh, ho]; exact rel_pr w ec b _
            | int i => simp [pretty.print, hmem, hh, ho]; exact rel_pr w ec b _
            | uint u => simp [pretty.print, hmem, hh, ho]; exact rel_pr w ec b _
            | str t => simp [pretty.print, hmem, hh, ho]; exact rel_pr w ec b _
            | arr en elems =>
              simp [pretty.print, hmem, hh, ho]
              refine rel_pbind (rel_pr w ec b "[") (fun w2 b2 => ?_) (fun w2 => ?_)
              · exact rel_pbind (ihE h (r :: path) (ind ++ "\t") elems w2 ec b2)
                  (fun w3 b3 => rel_pr w3 ec b3 (ind ++ "]"))
                  (fun w3 => ext_pr w3 ec (ind ++ "]"))
              · exact ext_pbind (mE h (r :: path) (ind ++ "\t") elems w2 ec)
                  (fun w3 => ext_pr w3 ec (ind ++ "]"))
            | ptr target =>
              cases target with
              | none => simp [pretty.print, hmem, hh, ho]; exact rel_pr w ec b "nil"
              | some tg =>
                simp [pretty.print, hmem, hh, ho]
                exact ihP h (r :: path) ind (some tg) w ec b
            | strukt nm fs =>
              simp [pretty.print, hmem, hh, ho]
              exact ihS h (r :: path) ind nm fs w ec b
            | map es => simp [pretty.print, hmem, hh, ho]; exact rel_pr w ec b _
            | chan => simp [pretty.print, hmem, hh, ho]; exact rel_pr w ec b _
            | func => simp [pretty.print, hmem, hh, ho]; exact rel_pr w ec b _
            | unsafePointer => simp [pretty.print, hmem, hh, ho]; exact rel_pr w ec b _
    · intro h path ind name fields w ec b
      simp only [pretty.printStruct]
      refine rel_pbind (rel_pr w ec b _) (fun w2 b2 => ?_) (fun w2 => ?_)
      · refine rel_pbind (ihF h path (ind ++ "\t") fields w2 ec b2)
          (fun w3 b3 => ?_) (fun w3 => ?_)
        · by_cases hu : fields.any (fun f => !f.exported) = true
          · simp only [hu, if_true]
            exact rel_pbind (rel_pr w3 ec b3 _) (fun w4 b4 => rel_pr w4 ec b4 _)
              (fun w4 => ext_pr w4 ec _)
          · simp only [hu, Bool.false_eq_true, if_false]
            exact rel_pbind (rel_stay w3 ec b3 none) (fun w4 b4 => rel_pr w4 ec b4 _)
              (fun w4 => ext_pr w4 ec _)
        · by_cases hu : fields.any (fun f => !f.exported) = true
          · simp only [hu, if_true]
            exact ext_pbind (ext_pr w3 ec _) (fun w4 => ext_pr w4 ec _)
          · simp only [hu, Bool.false_eq_true, if_false]
            exact ext_pbind (ext_stay w3 ec none) (fun w4 => ext_pr w4 ec _)
      · refine ext_pbind (mF h path (ind ++ "\t") fields w2 ec) (fun w3 => ?_)
        by_cases hu : fields.any (fun f => !f.exported) = true
        · simp only [hu, if_true]
          exact ext_pbind (ext_pr w3 ec _) (fun w4 => ext_pr w4 ec _)
        · simp only [hu, Bool.false_eq_true, if_false]
          exact ext_pbind (ext_stay w3 ec none) (fun w4 => ext_pr w4 ec _)
    · intro h path ind2 fields w ec b
      cases fields with
      | nil => simp only [pretty.printFields]; exact rel_stay w ec b _
      | cons f rest =>
        by_cases hx : f.exported = true
        · simp [pretty.printFields, hx]
          refine rel_pbind (rel_pr w ec b _) (fun w2 b2 => ?_) (fun w2 => ?_)
          · exact rel_pbind (ihP h path ind2 (some f.val) w2 ec b2)
              (fun w3 b3 => ihF h path ind2 rest w3 ec b3)
              (fun w3 => mF h path ind2 rest w3 ec)
          · exact ext_pbind (mP h path ind2 (some f.val) w2 ec)
              (fun w3 => mF h path ind2 rest w3 ec)
        · simp [pretty.printFields, hx]
          exact ihF h path ind2 rest w ec b
    · intro h path ind2 elems w ec b
      cases elems with
      | nil => simp only [pretty.printElems]; exact rel_stay w ec b _
      | cons x rest =>
        simp only [pretty.printElems]
        refine rel_pbind (rel_pr w ec b _) (fun w2 b2 => ?_) (fun w2 => ?_)
        · exact rel_pbind (ihP h path ind2 (some x) w2 ec b2)
            (fun w3 b3 => ihE h path ind2 rest w3 ec b3)
            (fun w3 => mE h path ind2 rest w3 ec)
        · exact ext_pbind (mP h path ind2 (some x) w2 ec)
            (fun w3 => mE h path ind2 rest w3 ec)

/-- The text a `Fprint` call reports is the text its traversal wrote. -/
theorem writtenOf_fprint (h : Heap) (fuel : Nat) (s : Sink) (v : Option Nat) :
    writtenOf (pretty.Fprint h fuel s v) = (pretty.print h fuel s [] "\n" v).1.written := by
  rcases hp : pretty.print h fuel s [] "\n" v with ⟨s2, f⟩
  cases f with
  | none => simp [pretty.Fprint, hp, writtenOf]
  | some fl => cases fl <;> simp [pretty.Fprint, hp, writtenOf]

/-- Claim C6: if the writer starts failing, the render call reports the
writer's error as its returned error value (not a crash), and the text that
reached the writer is a prefix of the text of an unimpeded run: the
traversal unwinds at the first failed write with no further writes, only
truncating the output.  A fault that is not a write error (a custom-format
method panicking with a non-error value) escapes the call as a panic. -/
theorem fprint_write_failure_behavior :
    ∀ (h : Heap) (fuel : Nat) (v : Option Nat) (w : String) (ec b : Nat),
      (∃ t, writtenOf (pretty.Fprint h fuel ⟨w, none, ec⟩ v)
          = writtenOf (pretty.Fprint h fuel ⟨w, some b, ec⟩ v) ++ t)
      ∧ ((pretty.print h fuel ⟨w, some b, ec⟩ [] "\n" v).2 = some (Fault.ioErr ec) →
          pretty.Fprint h fuel ⟨w, some b, ec⟩ v
            = FprintRes.err ec (pretty.print h fuel ⟨w, some b, ec⟩ [] "\n" v).1.written)
      ∧ ((pretty.print h fuel ⟨w, some b, ec⟩ [] "\n" v).2 = some Fault.hookOther →
          pretty.Fprint h fuel ⟨w, some b, ec⟩ v
            = FprintRes.crashed (pretty.print h fuel ⟨w, some b, ec⟩ [] "\n" v).1.written) := by
  intro h fuel v w ec b
  refine ⟨?_, ?_, ?_⟩
  · have hr := (print_rel_all fuel).1 h [] "\n" v w ec b
    obtain ⟨he1, he2, hb2, hb1, hcase⟩ := hr
    rw [writtenOf_fprint, writtenOf_fprint]
    rcases hcase with ⟨hf, t, ht⟩ | ⟨hff, hw⟩
    · exact ⟨t, ht⟩
    · exact ⟨"", by rw [String.append_empty, hw]⟩
  · intro hio
    rcases hp : pretty.print h fuel ⟨w, some b, ec⟩ [] "\n" v with ⟨s2, f⟩
    rw [hp] at hio
    simp only at hio
    subst hio
    simp [pretty.Fprint, hp]
  · intro hio
    rcases hp : pretty.print h fuel ⟨w, some b, ec⟩ [] "\n" v with ⟨s2, f⟩
    rw [hp] at hio
    simp only at hio
    subst hio
    simp [pretty.Fprint, hp]

/-- Witness for `fprint_write_failure_behavior`: a writer failing after two
writes truncates a record render and surfaces the write error as the
returned error, and a custom-format method panicking with a non-error value
crashes the call. -/
theorem fprint_write_failure_behavior_witness :
    ((pretty.print Inputs.twoFieldHeap 32 ⟨"", some 2, 5⟩ [] "\n" (some 0)).2
        = some (Fault.ioErr 5)
      ∧ pretty.Fprint Inputs.twoFieldHeap 32 ⟨"", some 2, 5⟩ (some 0)
        = FprintRes.err 5
            (pretty.print Inputs.twoFieldHeap 32 ⟨"", some 2, 5⟩ [] "\n" (some 0)).1.written)
    ∧ ((pretty.print Inputs.hookOtherHeap 3 ⟨"", some 9, 5⟩ [] "\n" (some 0)).2
        = some Fault.hookOther
      ∧ pretty.Fprint Inputs.hookOtherHeap 3 ⟨"", some 9, 5⟩ (some 0)
        = FprintRes.crashed
            (pretty.print Inputs.hookOtherHeap 3 ⟨"", some 9, 5⟩ [] "\n" (some 0)).1.written) :=
  ⟨⟨by decide,
      (fprint_write_failure_behavior Inputs.twoFieldHeap 32 (some 0) "" 5 2).2.1 (by decide)⟩,
    ⟨by decide,
      (fprint_write_failure_behavior Inputs.hookOtherHeap 3 (some 0) "" 5 9).2.2 (by decide)⟩⟩

end Properties
